import Mathlib

/-!
Verification development for the OCR-Processing repository.

The embedded program is `pdfToTextOCR` from `src/pdfOCR.js` (the canonical
worker-pool variant): it queries a page count, enforces a 30-page limit,
rasterizes the PDF to `page*.jpg` images, sorts the image files by the first
digit run in their names, recognizes them in sequential batches of five
concurrent tasks over a pre-created pool of five workers, deletes each
batch's images after the batch settles, terminates the workers in a
`finally` block, sorts the per-page results by index, joins them with single
spaces, and normalizes the whitespace of the joined text.

External effects (the `pdfinfo` page count, the rasterizer's directory
contents, per-page recognizer outcomes, worker-creation outcomes, the
completion order of the concurrent tasks in a batch, and the final write)
are inputs of the model, collected in `Config`.  The run is modelled as a
pure function returning the result, the ordered event trace, and the final
contents of the working directory.
-/

namespace PdfOCR

/-- Whitespace test matching the character class of the JavaScript regular
expression used in `fullText.replace(/\s+/g, ' ')` at line 131 of
`pdfOCR.js`, which is also the set removed by `String.prototype.trim()`:
space, tab, line feed, vertical tab, form feed, carriage return, NBSP,
Ogham space mark, the U+2000 to U+200A spaces, line separator, paragraph
separator, narrow NBSP, medium mathematical space, ideographic space, and
the byte-order mark. -/
def isWS (c : Char) : Bool :=
  c = ' ' || c = '\t' || c = '\n' || c = '\x0b' || c = '\x0c' || c = '\r' ||
    c = ' ' || c = ' ' || (0x2000 ≤ c.toNat && c.toNat ≤ 0x200A) ||
    c = ' ' || c = ' ' || c = ' ' || c = ' ' ||
    c = '　' || c = '﻿'

/-- First replace pass of line 131, `fullText.replace(/\n+/g, ' ')`: every
maximal run of line feeds becomes a single space. -/
def collapseNL : List Char → List Char
  | [] => []
  | [c] => if c = '\n' then [' '] else [c]
  | c :: d :: rest =>
    if c = '\n' then
      if d = '\n' then collapseNL (d :: rest)
      else ' ' :: collapseNL (d :: rest)
    else c :: collapseNL (d :: rest)

/-- Second replace pass of line 131, `.replace(/\s+/g, ' ')`: every maximal
run of whitespace becomes a single space. -/
def collapseWS : List Char → List Char
  | [] => []
  | [c] => if isWS c then [' '] else [c]
  | c :: d :: rest =>
    if isWS c then
      if isWS d then collapseWS (d :: rest)
      else ' ' :: collapseWS (d :: rest)
    else c :: collapseWS (d :: rest)

/-- The `.trim()` call of line 131: drop whitespace from both ends. -/
def trimEnds (l : List Char) : List Char :=
  ((l.dropWhile isWS).reverse.dropWhile isWS).reverse

/-- The text cleanup at line 131 of `pdfOCR.js`:
`fullText.replace(/\n+/g, ' ').replace(/\s+/g, ' ').trim()`. -/
def normalize (s : String) : String :=
  String.mk (trimEnds (collapseWS (collapseNL s.data)))

/-- Two adjacent characters are not both whitespace. -/
def WSep (a b : Char) : Prop := isWS a = true → isWS b = true → False

/-- Canonical whitespace form: every whitespace character is a plain space
and no two adjacent characters are both whitespace. -/
def GoodWS (l : List Char) : Prop :=
  (∀ c ∈ l, isWS c = true → c = ' ') ∧ l.Chain' WSep

/-- Filename filter of line 50:
`file.startsWith('page') && file.endsWith('.jpg')`. -/
def isPageImage (f : String) : Bool :=
  "page".data.isPrefixOf f.data && ".jpg".data.isSuffixOf f.data

/-- Value of a decimal digit run, as computed by the JS `parseInt` on the
matched digits. -/
def digitsToNat (l : List Char) : Nat :=
  l.foldl (fun acc c => acc * 10 + (c.toNat - 48)) 0

/-- First maximal run of decimal digits of a character list: the JS
`file.match(/\d+/)`, which returns `null` (here `none`) when the file name
contains no digit. -/
def firstDigitRun : List Char → Option (List Char)
  | [] => none
  | c :: cs =>
    if c.isDigit then some (c :: cs.takeWhile Char.isDigit)
    else firstDigitRun cs

/-- Numeric page index embedded in a generated file name, lines 52 to 53:
`parseInt(file.match(/\d+/)[0])`; `none` when the name has no digit (the
indexing `[0]` of `null` then throws). -/
def parsePageIndex (f : String) : Option Nat :=
  (firstDigitRun f.data).map digitsToNat

/-- Sort key used by the comparator `numA - numB`; the default value is
irrelevant because the pipeline only sorts lists whose members all parse. -/
def numKey (f : String) : Nat := (parsePageIndex f).getD 0

/-- Comparator of lines 51 to 55: order file names by embedded numeric
index. -/
def fileLE (a b : String) : Prop := numKey a ≤ numKey b

instance : DecidableRel fileLE := fun _ _ => Nat.decLe _ _

instance : IsTotal String fileLE := ⟨fun _ _ => Nat.le_total _ _⟩

instance : IsTrans String fileLE := ⟨fun _ _ _ h h' => Nat.le_trans h h'⟩

/-- Numeric sort of the generated image files, lines 49 to 55. -/
def sortFiles (files : List String) : List String :=
  List.insertionSort fileLE files

/-- Per-page result record produced by `processPageOCRWithWorker`. -/
structure PageResult where
  index : Nat
  text : String
  deriving DecidableEq, Repr

/-- Comparator of line 120: `(a, b) => a.index - b.index`. -/
def resLE (a b : PageResult) : Prop := a.index ≤ b.index

instance : DecidableRel resLE := fun _ _ => Nat.decLe _ _

instance : IsTotal PageResult resLE := ⟨fun _ _ => Nat.le_total _ _⟩

instance : IsTrans PageResult resLE := ⟨fun _ _ _ h h' => Nat.le_trans h h'⟩

/-- The sort at line 120: `results.sort((a, b) => a.index - b.index)`. -/
def sortResults (l : List PageResult) : List PageResult :=
  List.insertionSort resLE l

/-- Lines 176 to 201, `processPageOCRWithWorker`: recognition of page
`i` returns the recognizer's text when it resolves (`some`), and the catch
branch turns a recognition exception (`none`) into the record
`{index: i, text: ''}` instead of propagating it. -/
def processPageOCRWithWorker (recognizeRes : Nat → Option String) (i : Nat) :
    PageResult :=
  { index := i, text := (recognizeRes i).getD "" }

/-- Batch partition of the loop at lines 84 to 85:
`for (i = 0; i < files.length; i += BATCH_SIZE)` with
`files.slice(i, i + BATCH_SIZE)` and `BATCH_SIZE = 5`. -/
def chunks5 {α : Type} : List α → List (List α)
  | [] => []
  | a :: b :: c :: d :: e :: rest => [a, b, c, d, e] :: chunks5 rest
  | l => [l]

/-- Observable steps of one pipeline run, in program order. -/
inductive Event where
  | queryPageCount
  | rasterize
  | createWorker (i : Nat)
  | startPage (i : Nat)
  | settlePage (i : Nat)
  | deleteFile (f : String)
  | terminateWorker (i : Nat)
  | rmdirTemp
  deriving DecidableEq, Repr

/-- Failures `pdfToTextOCR` can propagate. -/
inductive OCRError where
  | couldNotDetermine
  | pageLimitExceeded (n : Nat)
  | filenameWithoutDigits
  | workerCreationFailed (i : Nat)
  | outputWriteFailed
  deriving DecidableEq, Repr

/-- Successful return value of `pdfToTextOCR`, lines 139 to 142. -/
structure RunOutcome where
  text : String
  pageCount : Nat
  deriving DecidableEq, Repr

/-- External behaviour a run is exposed to: the page count parsed from
`pdfinfo` output (0 when the regex does not match), the directory contents
produced by `pdftoppm`, the outcome of each `createWorker` call, the
outcome of recognition per global page index (`none` models a rejection),
the completion order of the concurrent tasks of a batch (given the batch's
global indices), and whether the final output write succeeds. -/
structure Config where
  reportedPageCount : Nat
  rasterFiles : List String
  workerOk : Nat → Bool
  recognizeRes : Nat → Option String
  settleOrder : List Nat → List Nat
  writeOk : Bool

/-- Worker-pool creation loop of lines 65 to 80: workers are created one at
a time, in order; a failing `createWorker` makes the whole run throw at
that point, with no cleanup of the workers already created (the loop is
outside the `try`/`finally` of lines 83 to 117).  Returns the creation
events and the index of the first failing creation, if any. -/
def createPool (ok : Nat → Bool) : List Nat → List Event × Option Nat
  | [] => ([], none)
  | i :: is =>
    if ok i then
      let rest := createPool ok is
      (Event.createWorker i :: rest.1, rest.2)
    else ([], some i)

/-- Events of one iteration of the batch loop, lines 84 to 106: the batch's
tasks are all launched in list order by `batch.map`, they settle in the
completion order chosen by the scheduler, `Promise.all` is awaited, and
then every image of the batch is deleted (lines 99 to 105). -/
def batchTrace (settleOrder : List Nat → List Nat)
    (b : List (Nat × String)) : List Event :=
  b.map (fun p => Event.startPage p.1)
    ++ (settleOrder (b.map Prod.fst)).map Event.settlePage
    ++ b.map (fun p => Event.deleteFile p.2)

/-- Results of one batch: `Promise.all` resolves to the per-task results in
task order, independently of completion order. -/
def batchResults (recognizeRes : Nat → Option String)
    (b : List (Nat × String)) : List PageResult :=
  b.map (fun p => processPageOCRWithWorker recognizeRes p.1)

/-- The `results` array after the batch loop (lines 61, 95 to 96): batches
are processed in order and each batch appends its results in task order. -/
def pipelineResults (recognizeRes : Nat → Option String)
    (files : List String) : List PageResult :=
  ((chunks5 files.enum).map (batchResults recognizeRes)).flatten

/-- Lines 119 to 121: sort the results by index and join the texts with a
single separating space. -/
def joinedText (results : List PageResult) : String :=
  " ".intercalate ((sortResults results).map PageResult.text)

/-- The whole of `pdfToTextOCR` (lines 15 to 166) as a function of the
external behaviour: returns the result (or the propagated error), the
ordered event trace, and the final contents of the temp directory.
Control flow in source order: page-count query and zero check (lines 27 to
33), 30-page limit before rasterization (lines 38 to 40), `pdftoppm`
(line 46), filter and numeric sort of the generated files (lines 49 to 55,
where a file name without digits throws from inside the comparator, which
requires at least two files so that the comparator runs), worker-pool
creation (lines 65 to 80), the batch loop inside `try` (lines 83 to 106),
worker termination in `finally` (lines 107 to 117), result sort and join
(lines 119 to 121), temp-dir removal (lines 124 to 128), text cleanup
(line 131), output write (line 134).  The catch of lines 144 to 165
deletes every remaining file, removes the directory, and rethrows the
original error. -/
def runOCR (cfg : Config) : Except OCRError RunOutcome × List Event × List String :=
  if cfg.reportedPageCount = 0 then
    (Except.error OCRError.couldNotDetermine,
      [Event.queryPageCount, Event.rmdirTemp], [])
  else if 30 < cfg.reportedPageCount then
    (Except.error (OCRError.pageLimitExceeded cfg.reportedPageCount),
      [Event.queryPageCount, Event.rmdirTemp], [])
  else
    let matching := cfg.rasterFiles.filter isPageImage
    if 2 ≤ matching.length ∧ ∃ f ∈ matching, parsePageIndex f = none then
      (Except.error OCRError.filenameWithoutDigits,
        [Event.queryPageCount, Event.rasterize]
          ++ cfg.rasterFiles.map Event.deleteFile ++ [Event.rmdirTemp], [])
    else
      let files := sortFiles matching
      let pool := createPool cfg.workerOk (List.range 5)
      match pool.2 with
      | some i =>
        (Except.error (OCRError.workerCreationFailed i),
          [Event.queryPageCount, Event.rasterize] ++ pool.1
            ++ cfg.rasterFiles.map Event.deleteFile ++ [Event.rmdirTemp], [])
      | none =>
        let cleaned := normalize (joinedText (pipelineResults cfg.recognizeRes files))
        let leftover := cfg.rasterFiles.filter (fun f => !isPageImage f)
        let trace :=
          [Event.queryPageCount, Event.rasterize] ++ pool.1
            ++ ((chunks5 files.enum).map (batchTrace cfg.settleOrder)).flatten
            ++ (List.range 5).map Event.terminateWorker
            ++ [Event.rmdirTemp]
        if cfg.writeOk then
          (Except.ok { text := cleaned, pageCount := files.length }, trace,
            leftover)
        else
          (Except.error OCRError.outputWriteFailed,
            trace ++ leftover.map Event.deleteFile ++ [Event.rmdirTemp], [])


deriving instance DecidableEq for Except

/-- Classifier of task-launch events, used to count in-flight recognition
tasks. -/
def isStartEv : Event → Bool
  | Event.startPage _ => true
  | _ => false

/-- Classifier of task-settlement events. -/
def isSettleEv : Event → Bool
  | Event.settlePage _ => true
  | _ => false

/-- A one-page document whose recognized text contains a line feed. -/
def cfgNewlinePage : Config :=
  { reportedPageCount := 1
    rasterFiles := ["page-1.jpg"]
    workerOk := fun _ => true
    recognizeRes := fun _ => some "a\nb"
    settleOrder := fun l => l
    writeOk := true }

/-- A three-page document, listed out of order by the directory and with
every batch settling in reverse order. -/
def cfgThreePages : Config :=
  { reportedPageCount := 3
    rasterFiles := ["page-3.jpg", "page-1.jpg", "page-2.jpg"]
    workerOk := fun _ => true
    recognizeRes := fun i => some (["p1", "p2", "p3"].getD i "")
    settleOrder := fun l => l.reverse
    writeOk := true }

/-- A three-page document where recognition of page 1 (0-based) rejects. -/
def cfgDropPage : Config :=
  { reportedPageCount := 3
    rasterFiles := ["page-1.jpg", "page-2.jpg", "page-3.jpg"]
    workerOk := fun _ => true
    recognizeRes := fun i =>
      if i = 1 then none else some (["a", "b", "c"].getD i "")
    settleOrder := fun l => l
    writeOk := true }

/-- A 31-page document. -/
def cfgOversized : Config :=
  { reportedPageCount := 31
    rasterFiles := []
    workerOk := fun _ => true
    recognizeRes := fun _ => none
    settleOrder := fun l => l
    writeOk := true }

/-- A run where the third `createWorker` call rejects. -/
def cfgWorkerLeak : Config :=
  { reportedPageCount := 2
    rasterFiles := ["page-1.jpg", "page-2.jpg"]
    workerOk := fun i => decide (i < 2)
    recognizeRes := fun _ => none
    settleOrder := fun l => l
    writeOk := true }

/-- A two-page document processed in a single batch, page 0 settling
before page 1. -/
def cfgPair : Config :=
  { reportedPageCount := 2
    rasterFiles := ["page-1.jpg", "page-2.jpg"]
    workerOk := fun _ => true
    recognizeRes := fun i => some (["u", "v"].getD i "")
    settleOrder := fun l => l
    writeOk := true }

/-- A run whose directory also contains a file that is not a page image. -/
def cfgLeftover : Config :=
  { reportedPageCount := 1
    rasterFiles := ["page-1.jpg", "notes.txt"]
    workerOk := fun _ => true
    recognizeRes := fun _ => some "x"
    settleOrder := fun l => l
    writeOk := true }

/-- A reported page count of 2 with no generated page images. -/
def cfgNoImages : Config :=
  { reportedPageCount := 2
    rasterFiles := []
    workerOk := fun _ => true
    recognizeRes := fun _ => none
    settleOrder := fun l => l
    writeOk := true }

theorem collapseWS_head_not_ws {d : Char} (rest : List Char)
    (hd : isWS d = false) : (collapseWS (d :: rest)).head? = some d := by
  cases rest with
  | nil => simp [collapseWS, hd]
  | cons e rest => simp [collapseWS, hd]

theorem goodWS_collapseWS : ∀ l : List Char, GoodWS (collapseWS l)
  | [] => ⟨by simp [collapseWS], by simp [collapseWS]⟩
  | [c] => by
    by_cases h : isWS c = true <;>
      exact ⟨by simp [collapseWS, h], by simp [collapseWS, h]⟩
  | c :: d :: rest => by
    have IH := goodWS_collapseWS (d :: rest)
    by_cases hc : isWS c = true
    · by_cases hd : isWS d = true
      · simpa [collapseWS, hc, hd] using IH
      · have hd' : isWS d = false := by simpa using hd
        have hrw : collapseWS (c :: d :: rest) = ' ' :: collapseWS (d :: rest) := by
          simp [collapseWS, hc, hd']
        refine ⟨?_, ?_⟩
        · intro x hx hwx
          rw [hrw] at hx
          rcases List.mem_cons.1 hx with h1 | h1
          · exact h1
          · exact IH.1 x h1 hwx
        · rw [hrw, List.chain'_cons']
          refine ⟨?_, IH.2⟩
          intro y hy
          rw [collapseWS_head_not_ws rest hd'] at hy
          intro _ hwy
          rw [Option.mem_def, Option.some_inj] at hy
          rw [hy] at hd'
          rw [hd'] at hwy
          exact Bool.false_ne_true hwy
    · have hc' : isWS c = false := by simpa using hc
      have hrw : collapseWS (c :: d :: rest) = c :: collapseWS (d :: rest) := by
        simp [collapseWS, hc']
      refine ⟨?_, ?_⟩
      · intro x hx hwx
        rw [hrw] at hx
        rcases List.mem_cons.1 hx with h1 | h1
        · rw [h1] at hwx
          rw [hc'] at hwx
          exact absurd hwx Bool.false_ne_true
        · exact IH.1 x h1 hwx
      · rw [hrw, List.chain'_cons']
        refine ⟨?_, IH.2⟩
        intro y _ hwc _
        rw [hc'] at hwc
        exact Bool.false_ne_true hwc

theorem collapseWS_eq_self : ∀ {l : List Char}, GoodWS l → collapseWS l = l
  | [], _ => rfl
  | [c], h => by
    by_cases hc : isWS c = true
    · have : c = ' ' := h.1 c (by simp) hc
      simp [collapseWS, hc, this]
    · have hc' : isWS c = false := by simpa using hc
      simp [collapseWS, hc']
  | c :: d :: rest, h => by
    have htail : GoodWS (d :: rest) :=
      ⟨fun x hx hwx => h.1 x (List.mem_cons_of_mem c hx) hwx, h.2.tail⟩
    have IH := collapseWS_eq_self htail
    by_cases hc : isWS c = true
    · have hsep : WSep c d := (List.chain'_cons.1 h.2).1
      have hd' : isWS d = false := by
        by_cases hd : isWS d = true
        · exact absurd (hsep hc hd) (fun x => x)
        · simpa using hd
      have hsp : c = ' ' := h.1 c (by simp) hc
      simp [collapseWS, hc, hd', IH, hsp]
    · have hc' : isWS c = false := by simpa using hc
      simp [collapseWS, hc', IH]

theorem goodWS_suffix {l l' : List Char} (h : GoodWS l) (hs : l' <:+ l) :
    GoodWS l' :=
  ⟨fun c hc hwc => h.1 c (hs.sublist.subset hc) hwc, h.2.suffix hs⟩

theorem goodWS_reverse {l : List Char} (h : GoodWS l) : GoodWS l.reverse := by
  refine ⟨fun c hc hwc => h.1 c (List.mem_reverse.1 hc) hwc, ?_⟩
  rw [List.chain'_reverse]
  exact h.2.imp fun a b hab hb ha => hab ha hb

theorem goodWS_trimEnds {l : List Char} (h : GoodWS l) : GoodWS (trimEnds l) :=
  goodWS_reverse
    (goodWS_suffix (goodWS_reverse (goodWS_suffix h (List.dropWhile_suffix _)))
      (List.dropWhile_suffix _))

theorem head?_dropWhile_ws (l : List Char) :
    ∀ c ∈ (l.dropWhile isWS).head?, isWS c = false := by
  induction l with
  | nil => simp
  | cons a l ih =>
    by_cases h : isWS a = true
    · simpa [List.dropWhile_cons, h] using ih
    · have h' : isWS a = false := by simpa using h
      simp [List.dropWhile_cons, h']

theorem dropWhile_ws_eq_self {l : List Char}
    (h : ∀ c ∈ l.head?, isWS c = false) : l.dropWhile isWS = l := by
  cases l with
  | nil => rfl
  | cons a l =>
    have := h a (by simp)
    simp [List.dropWhile_cons, this]

theorem trimEnds_sublist (l : List Char) : (trimEnds l).Sublist l := by
  have h1 : (l.dropWhile isWS).Sublist l := List.dropWhile_sublist _
  have h2 : ((l.dropWhile isWS).reverse.dropWhile isWS).Sublist
      (l.dropWhile isWS).reverse := List.dropWhile_sublist _
  have h3 := h2.reverse
  rw [List.reverse_reverse] at h3
  exact h3.trans h1

theorem trimEnds_idem (l : List Char) : trimEnds (trimEnds l) = trimEnds l := by
  set A := l.dropWhile isWS with hA
  set B := A.reverse.dropWhile isWS with hB
  have hT : trimEnds l = B.reverse := rfl
  have hAhead : ∀ c ∈ A.head?, isWS c = false := head?_dropWhile_ws l
  have hBhead : ∀ c ∈ B.head?, isWS c = false := head?_dropWhile_ws A.reverse
  have hpre : B.reverse <+: A := by
    have hsuf : B <:+ A.reverse := List.dropWhile_suffix _
    have hrp := @List.reverse_prefix Char B A.reverse
    rw [List.reverse_reverse] at hrp
    exact hrp.2 hsuf
  have hThead : ∀ c ∈ B.reverse.head?, isWS c = false := by
    intro c hc
    rcases hpre with ⟨r, hr⟩
    cases hBrev : B.reverse with
    | nil => rw [hBrev] at hc; simp at hc
    | cons t ts =>
      rw [hBrev] at hc
      simp only [List.head?_cons, Option.mem_def, Option.some_inj] at hc
      have hAt : A.head? = some t := by
        rw [← hr, hBrev]; rfl
      rw [← hc]
      exact hAhead t (by rw [hAt]; rfl)
  have step1 : B.reverse.dropWhile isWS = B.reverse :=
    dropWhile_ws_eq_self hThead
  have step2 : B.reverse.reverse.dropWhile isWS = B := by
    rw [List.reverse_reverse]
    exact dropWhile_ws_eq_self hBhead
  rw [hT]
  show ((B.reverse.dropWhile isWS).reverse.dropWhile isWS).reverse = B.reverse
  rw [step1, step2]

theorem collapseNL_eq_self : ∀ {l : List Char}, (∀ c ∈ l, c ≠ '\n') →
    collapseNL l = l
  | [], _ => rfl
  | [c], h => by
    have := h c (by simp)
    simp [collapseNL, this]
  | c :: d :: rest, h => by
    have hc := h c (by simp)
    have IH := collapseNL_eq_self (fun x hx => h x (List.mem_cons_of_mem c hx))
    simp [collapseNL, hc, IH]

theorem not_nl_mem_collapseWS {l : List Char} : '\n' ∉ collapseWS l := by
  intro hmem
  have h := (goodWS_collapseWS l).1 '\n' hmem (by decide)
  exact absurd h (by decide)

/-- C4: the text normalizer of line 131 (collapse newline runs, collapse
whitespace runs to single spaces, trim) is idempotent:
`normalize (normalize x) = normalize x` for every string `x`.  It is a pure
function by construction of the embedding. -/
theorem claim4_normalize_idempotent (s : String) :
    normalize (normalize s) = normalize s := by
  have hW : GoodWS (collapseWS (collapseNL s.data)) := goodWS_collapseWS _
  have hT : GoodWS (trimEnds (collapseWS (collapseNL s.data))) :=
    goodWS_trimEnds hW
  have hdata : (normalize s).data = trimEnds (collapseWS (collapseNL s.data)) :=
    rfl
  have hnoNL : ∀ c ∈ trimEnds (collapseWS (collapseNL s.data)), c ≠ '\n' := by
    intro c hc hceq
    rw [hceq] at hc
    exact not_nl_mem_collapseWS ((trimEnds_sublist _).subset hc)
  have hstart : normalize (normalize s) =
      String.mk (trimEnds (collapseWS (collapseNL (normalize s).data))) := rfl
  rw [hstart, hdata, collapseNL_eq_self hnoNL, collapseWS_eq_self hT,
    trimEnds_idem]
  rfl

theorem prefix_append_split {α : Type} {p l₁ l₂ : List α}
    (h : p <+: l₁ ++ l₂) : p <+: l₁ ∨ ∃ q, q <+: l₂ ∧ p = l₁ ++ q := by
  induction l₁ generalizing p with
  | nil => exact Or.inr ⟨p, by simpa using h, by simp⟩
  | cons a l₁ ih =>
    cases p with
    | nil => exact Or.inl List.nil_prefix
    | cons x xs =>
      rw [List.cons_append, List.cons_prefix_cons] at h
      rcases h with ⟨hxa, h⟩
      rcases ih h with h' | ⟨q, hq, hxs⟩
      · exact Or.inl (List.cons_prefix_cons.2 ⟨hxa, h'⟩)
      · refine Or.inr ⟨q, hq, ?_⟩
        rw [hxa, hxs]
        rfl

theorem pair_sublist_flatten {α : Type} {ts : List (List α)} {k : Nat}
    {t₁ t₂ : List α} {x y : α}
    (h1 : ts[k]? = some t₁) (h2 : ts[k + 1]? = some t₂)
    (hx : x ∈ t₁) (hy : y ∈ t₂) : [x, y].Sublist ts.flatten := by
  induction ts generalizing k with
  | nil => simp at h1
  | cons t ts ih =>
    cases k with
    | zero =>
      rw [List.getElem?_cons_zero, Option.some_inj] at h1
      rw [List.getElem?_cons_succ] at h2
      have ht2 : t₂ ∈ ts := List.getElem?_mem h2
      have hxy : ([x] ++ [y]).Sublist (t ++ ts.flatten) :=
        List.Sublist.append (List.singleton_sublist.2 (by rw [h1]; exact hx))
          ((List.singleton_sublist.2 hy).trans (List.sublist_flatten_of_mem ht2))
      simpa using hxy
    | succ k =>
      rw [List.getElem?_cons_succ] at h1 h2
      exact (ih h1 h2).trans (List.sublist_append_right t ts.flatten)

theorem sublist_mid {α : Type} {x mid : List α} (pre post : List α)
    (h : x.Sublist mid) : x.Sublist (pre ++ mid ++ post) := by
  have h1 : mid.Sublist (mid ++ post) := List.sublist_append_left mid post
  have h2 : (mid ++ post).Sublist (pre ++ (mid ++ post)) :=
    List.sublist_append_right pre (mid ++ post)
  rw [← List.append_assoc] at h2
  exact (h.trans h1).trans h2

theorem chunks5_flatten {α : Type} : ∀ l : List α, (chunks5 l).flatten = l
  | [] => rfl
  | [_] => rfl
  | [_, _] => rfl
  | [_, _, _] => rfl
  | [_, _, _, _] => rfl
  | a :: b :: c :: d :: e :: rest => by
    simp only [chunks5, List.flatten_cons, chunks5_flatten rest]
    rfl

theorem chunks5_mem_length {α : Type} :
    ∀ l : List α, ∀ b ∈ chunks5 l, b.length ≤ 5
  | [] => by simp [chunks5]
  | [_] => by simp [chunks5]
  | [_, _] => by simp [chunks5]
  | [_, _, _] => by simp [chunks5]
  | [_, _, _, _] => by simp [chunks5]
  | a :: b :: c :: d :: e :: rest => by
    intro x hx
    simp only [chunks5, List.mem_cons] at hx
    rcases hx with h | h
    · rw [h]; simp
    · exact chunks5_mem_length rest x h

theorem createPool_all_ok (ok : Nat → Bool) :
    ∀ is : List Nat, (∀ i ∈ is, ok i = true) →
      createPool ok is = (is.map Event.createWorker, none)
  | [], _ => rfl
  | i :: is, h => by
    have hi : ok i = true := h i (by simp)
    have ih := createPool_all_ok ok is (fun j hj => h j (List.mem_cons_of_mem i hj))
    simp [createPool, hi, ih]

theorem countP_start_batchTrace (σ : List Nat → List Nat)
    (b : List (Nat × String)) :
    (batchTrace σ b).countP isStartEv = b.length := by
  simp [batchTrace, List.countP_append, List.countP_map, Function.comp_def,
    isStartEv, List.countP_true, List.countP_false]

theorem countP_settle_batchTrace (σ : List Nat → List Nat)
    (hσ : ∀ l, (σ l).Perm l) (b : List (Nat × String)) :
    (batchTrace σ b).countP isSettleEv = b.length := by
  have hlen : (σ (b.map Prod.fst)).length = b.length := by
    rw [(hσ _).length_eq, List.length_map]
  simp [batchTrace, List.countP_append, List.countP_map, Function.comp_def,
    isSettleEv, List.countP_true, List.countP_false, hlen]

theorem countP_zero_of_false {l : List Event} {p : Event → Bool}
    (h : ∀ e ∈ l, p e = false) : l.countP p = 0 :=
  List.countP_eq_zero.2 fun a ha => by simp [h a ha]

theorem flatten_batch_bound (σ : List Nat → List Nat)
    (hσ : ∀ l, (σ l).Perm l) :
    ∀ bs : List (List (Nat × String)), (∀ b ∈ bs, b.length ≤ 5) →
      ∀ p, p <+: (bs.map (batchTrace σ)).flatten →
        p.countP isStartEv ≤ p.countP isSettleEv + 5 := by
  intro bs
  induction bs with
  | nil =>
    intro _ p hp
    have hnil : p = [] := by simpa using (List.prefix_nil.1 (by simpa using hp))
    simp [hnil]
  | cons b bs ih =>
    intro hb p hp
    rw [List.map_cons, List.flatten_cons] at hp
    rcases prefix_append_split hp with h | ⟨q, hq, rfl⟩
    · have h1 : p.countP isStartEv ≤ (batchTrace σ b).countP isStartEv :=
        List.Sublist.countP_le _ h.sublist
      have h2 := countP_start_batchTrace σ b
      have h3 := hb b (by simp)
      omega
    · have h4 := countP_start_batchTrace σ b
      have h5 := countP_settle_batchTrace σ hσ b
      have h6 := ih (fun b' hb' => hb b' (List.mem_cons_of_mem b hb')) q hq
      rw [List.countP_append, List.countP_append]
      omega

theorem flatten_batch_balance (σ : List Nat → List Nat)
    (hσ : ∀ l, (σ l).Perm l) :
    ∀ bs : List (List (Nat × String)),
      ((bs.map (batchTrace σ)).flatten).countP isStartEv =
        ((bs.map (batchTrace σ)).flatten).countP isSettleEv
  | [] => rfl
  | b :: bs => by
    rw [List.map_cons, List.flatten_cons, List.countP_append,
      List.countP_append, countP_start_batchTrace,
      countP_settle_batchTrace σ hσ, flatten_batch_balance σ hσ bs]

theorem map_fst_zip_map {α β γ : Type} (g : α → γ) (r : List α) (s : List β)
    (h : r.length ≤ s.length) :
    (r.zip s).map (fun p => g p.1) = r.map g := by
  have h1 : (r.zip s).map (fun p => g p.1) = ((r.zip s).map Prod.fst).map g := by
    rw [List.map_map]; rfl
  rw [h1, List.map_fst_zip r s h]

theorem pipelineResults_eq (recognizeRes : Nat → Option String)
    (files : List String) :
    pipelineResults recognizeRes files =
      (List.range files.length).map
        (fun i => { index := i, text := (recognizeRes i).getD "" }) := by
  unfold pipelineResults batchResults
  rw [← List.map_flatten, chunks5_flatten, List.enum_eq_zip_range]
  unfold processPageOCRWithWorker
  exact map_fst_zip_map
    (fun i => ({ index := i, text := (recognizeRes i).getD "" } : PageResult))
    (List.range files.length) files (by simp)

theorem sortResults_range_map (n : Nat) (g : Nat → String) :
    sortResults ((List.range n).map (fun i => { index := i, text := g i })) =
      (List.range n).map (fun i => { index := i, text := g i }) := by
  apply List.Sorted.insertionSort_eq
  show List.Pairwise resLE _
  rw [List.pairwise_map]
  exact List.Pairwise.imp (fun h => Nat.le_of_lt h) (List.pairwise_lt_range n)

theorem joinedText_pipeline (recognizeRes : Nat → Option String)
    (files : List String) :
    joinedText (pipelineResults recognizeRes files) =
      " ".intercalate ((List.range files.length).map
        (fun i => (recognizeRes i).getD "")) := by
  rw [joinedText, pipelineResults_eq, sortResults_range_map, List.map_map]
  rfl

theorem runOCR_success_eq (cfg : Config)
    (h0 : cfg.reportedPageCount ≠ 0)
    (h30 : ¬ 30 < cfg.reportedPageCount)
    (hcond : ¬(2 ≤ (cfg.rasterFiles.filter isPageImage).length ∧
      ∃ f ∈ cfg.rasterFiles.filter isPageImage, parsePageIndex f = none))
    (hw : ∀ i, cfg.workerOk i = true)
    (hwrite : cfg.writeOk = true) :
    runOCR cfg =
      (Except.ok
        { text := normalize (joinedText (pipelineResults cfg.recognizeRes
              (sortFiles (cfg.rasterFiles.filter isPageImage))))
          pageCount := (sortFiles (cfg.rasterFiles.filter isPageImage)).length },
        [Event.queryPageCount, Event.rasterize]
          ++ (List.range 5).map Event.createWorker
          ++ ((chunks5 (sortFiles (cfg.rasterFiles.filter isPageImage)).enum).map
              (batchTrace cfg.settleOrder)).flatten
          ++ (List.range 5).map Event.terminateWorker
          ++ [Event.rmdirTemp],
        cfg.rasterFiles.filter (fun f => !isPageImage f)) := by
  have hpool : createPool cfg.workerOk (List.range 5) =
      ((List.range 5).map Event.createWorker, none) :=
    createPool_all_ok cfg.workerOk _ (fun i _ => hw i)
  rw [runOCR, if_neg h0, if_neg h30]
  simp only [if_neg hcond, hpool, hwrite, if_true]

theorem runOCR_writefail_eq (cfg : Config)
    (h0 : cfg.reportedPageCount ≠ 0)
    (h30 : ¬ 30 < cfg.reportedPageCount)
    (hcond : ¬(2 ≤ (cfg.rasterFiles.filter isPageImage).length ∧
      ∃ f ∈ cfg.rasterFiles.filter isPageImage, parsePageIndex f = none))
    (hw : ∀ i, cfg.workerOk i = true)
    (hwrite : cfg.writeOk = false) :
    runOCR cfg =
      (Except.error OCRError.outputWriteFailed,
        ([Event.queryPageCount, Event.rasterize]
          ++ (List.range 5).map Event.createWorker
          ++ ((chunks5 (sortFiles (cfg.rasterFiles.filter isPageImage)).enum).map
              (batchTrace cfg.settleOrder)).flatten
          ++ (List.range 5).map Event.terminateWorker
          ++ [Event.rmdirTemp])
          ++ (cfg.rasterFiles.filter (fun f => !isPageImage f)).map Event.deleteFile
          ++ [Event.rmdirTemp],
        []) := by
  have hpool : createPool cfg.workerOk (List.range 5) =
      ((List.range 5).map Event.createWorker, none) :=
    createPool_all_ok cfg.workerOk _ (fun i _ => hw i)
  rw [runOCR, if_neg h0, if_neg h30]
  simp only [if_neg hcond, hpool, hwrite, Bool.false_eq_true, if_false]

theorem runOCR_trace_decomp (cfg : Config)
    (h0 : cfg.reportedPageCount ≠ 0)
    (h30 : ¬ 30 < cfg.reportedPageCount)
    (hcond : ¬(2 ≤ (cfg.rasterFiles.filter isPageImage).length ∧
      ∃ f ∈ cfg.rasterFiles.filter isPageImage, parsePageIndex f = none))
    (hw : ∀ i, cfg.workerOk i = true) :
    ∃ post : List Event,
      (runOCR cfg).2.1 =
        ([Event.queryPageCount, Event.rasterize]
            ++ (List.range 5).map Event.createWorker)
          ++ (((chunks5 (sortFiles (cfg.rasterFiles.filter isPageImage)).enum).map
              (batchTrace cfg.settleOrder)).flatten ++ post)
        ∧ ∀ e ∈ post, isStartEv e = false ∧ isSettleEv e = false := by
  cases hwb : cfg.writeOk with
  | true =>
    refine ⟨(List.range 5).map Event.terminateWorker ++ [Event.rmdirTemp],
      ?_, ?_⟩
    · rw [runOCR_success_eq cfg h0 h30 hcond hw hwb]
      simp [List.append_assoc]
    · intro e he
      rcases List.mem_append.1 he with h | h
      · rcases List.mem_map.1 h with ⟨i, -, rfl⟩
        exact ⟨rfl, rfl⟩
      · rw [List.mem_singleton.1 h]
        exact ⟨rfl, rfl⟩
  | false =>
    refine ⟨(List.range 5).map Event.terminateWorker ++ [Event.rmdirTemp]
        ++ (cfg.rasterFiles.filter (fun f => !isPageImage f)).map Event.deleteFile
        ++ [Event.rmdirTemp], ?_, ?_⟩
    · rw [runOCR_writefail_eq cfg h0 h30 hcond hw hwb]
      simp [List.append_assoc]
    · intro e he
      rcases List.mem_append.1 he with h | h
      · rcases List.mem_append.1 h with h' | h'
        · rcases List.mem_append.1 h' with h'' | h''
          · rcases List.mem_map.1 h'' with ⟨i, -, rfl⟩
            exact ⟨rfl, rfl⟩
          · rw [List.mem_singleton.1 h'']
            exact ⟨rfl, rfl⟩
        · rcases List.mem_map.1 h' with ⟨f, -, rfl⟩
          exact ⟨rfl, rfl⟩
      · rw [List.mem_singleton.1 h]
        exact ⟨rfl, rfl⟩

/-- C2: when the reported page count exceeds 30 the run fails with the
page-limit error, and the trace contains no rasterization event — the
limit check of lines 38 to 40 runs before the `pdftoppm` invocation of
line 46, so no page is ever rasterized for an oversized document. -/
theorem claim2_page_limit_before_raster (cfg : Config)
    (h : 30 < cfg.reportedPageCount) :
    (runOCR cfg).1 =
        Except.error (OCRError.pageLimitExceeded cfg.reportedPageCount)
      ∧ Event.rasterize ∉ (runOCR cfg).2.1 := by
  have h0 : cfg.reportedPageCount ≠ 0 := by omega
  rw [runOCR, if_neg h0, if_pos h]
  exact ⟨rfl, by simp⟩

/-- Witness for C2: a 31-page document is rejected with the page-limit
error and nothing is rasterized. -/
theorem claim2_witness :
    (runOCR cfgOversized).1 = Except.error (OCRError.pageLimitExceeded 31)
      ∧ Event.rasterize ∉ (runOCR cfgOversized).2.1 :=
  claim2_page_limit_before_raster cfgOversized (by decide)

/-- C1 (amended): for a document of N pages where every per-page
recognition succeeds, the run returns page count N and its text is the
whitespace normalization of the space-joined, index-ordered concatenation
of the per-page OCR outputs — and this holds for every completion order of
the concurrent batch tasks, since the completion schedule `settleOrder` is
arbitrary here.  The raw join itself is returned only when it is already
whitespace-normal; see the counterexample. -/
theorem claim1_normalized_ordered_join (cfg : Config) (N : Nat)
    (t : Nat → String)
    (hrep : cfg.reportedPageCount = N)
    (hN : 1 ≤ N) (h30 : N ≤ 30)
    (hfiles : (cfg.rasterFiles.filter isPageImage).length = N)
    (hparse : ∀ f ∈ cfg.rasterFiles.filter isPageImage, parsePageIndex f ≠ none)
    (hwk : ∀ i, cfg.workerOk i = true)
    (hwrite : cfg.writeOk = true)
    (hrec : ∀ i < N, cfg.recognizeRes i = some (t i)) :
    (runOCR cfg).1 =
      Except.ok
        { text := normalize (" ".intercalate ((List.range N).map t))
          pageCount := N } := by
  have h0 : cfg.reportedPageCount ≠ 0 := by omega
  have h30' : ¬ 30 < cfg.reportedPageCount := by omega
  have hcond : ¬(2 ≤ (cfg.rasterFiles.filter isPageImage).length ∧
      ∃ f ∈ cfg.rasterFiles.filter isPageImage, parsePageIndex f = none) := by
    rintro ⟨-, f, hf, hnone⟩
    exact hparse f hf hnone
  rw [runOCR_success_eq cfg h0 h30' hcond hwk hwrite]
  dsimp only
  have hlen : (sortFiles (cfg.rasterFiles.filter isPageImage)).length = N := by
    rw [sortFiles, List.length_insertionSort, hfiles]
  rw [joinedText_pipeline, hlen]
  have hmap : (List.range N).map (fun i => (cfg.recognizeRes i).getD "") =
      (List.range N).map t :=
    List.map_congr_left fun i hi => by
      rw [hrec i (List.mem_range.1 hi)]
      rfl
  rw [hmap]

/-- C1 as stated fails on the code: with a single page whose OCR output is
the two-line text "a\nb", the pipeline returns the normalized text "a b",
not the raw space-joined index-ordered concatenation (which would be
"a\nb" itself). -/
theorem claim1_counterexample :
    (runOCR cfgNewlinePage).1 = Except.ok { text := "a b", pageCount := 1 }
      ∧ (runOCR cfgNewlinePage).1 ≠
        Except.ok { text := " ".intercalate ["a\nb"], pageCount := 1 } := by
  decide

/-- Witness for C1: three pages recognized as p1, p2, p3, listed out of
order by the directory and settling in reverse order, still give page
count 3 and the index-ordered join. -/
theorem claim1_witness :
    (runOCR cfgThreePages).1 =
      Except.ok
        { text := normalize (" ".intercalate
            ((List.range 3).map (fun i => ["p1", "p2", "p3"].getD i "")))
          pageCount := 3 } :=
  claim1_normalized_ordered_join cfgThreePages 3
    (fun i => ["p1", "p2", "p3"].getD i "") rfl (by decide) (by decide)
    (by decide) (by decide) (fun _ => rfl) rfl (fun _ _ => rfl)

/-- C3: a recognition exception for page k is caught by
`processPageOCRWithWorker` and recorded as the record with index k and
empty text; the run still succeeds, every sibling page's text is preserved
at its own position, and the empty string occupies position k of the
index-ordered join handed to the normalizer. -/
theorem claim3_failed_page_empty_at_position (cfg : Config) (N k : Nat)
    (t : Nat → String)
    (hrep : cfg.reportedPageCount = N)
    (hN : 1 ≤ N) (h30 : N ≤ 30)
    (hfiles : (cfg.rasterFiles.filter isPageImage).length = N)
    (hparse : ∀ f ∈ cfg.rasterFiles.filter isPageImage, parsePageIndex f ≠ none)
    (hwk : ∀ i, cfg.workerOk i = true)
    (hwrite : cfg.writeOk = true)
    (hk : k < N)
    (hreck : cfg.recognizeRes k = none)
    (hrec : ∀ i < N, i ≠ k → cfg.recognizeRes i = some (t i)) :
    processPageOCRWithWorker cfg.recognizeRes k = { index := k, text := "" }
      ∧ (runOCR cfg).1 =
        Except.ok
          { text := normalize (" ".intercalate ((List.range N).map
              (fun i => if i = k then "" else t i)))
            pageCount := N } := by
  constructor
  · rw [processPageOCRWithWorker, hreck]
    rfl
  · have h0 : cfg.reportedPageCount ≠ 0 := by omega
    have h30' : ¬ 30 < cfg.reportedPageCount := by omega
    have hcond : ¬(2 ≤ (cfg.rasterFiles.filter isPageImage).length ∧
        ∃ f ∈ cfg.rasterFiles.filter isPageImage, parsePageIndex f = none) := by
      rintro ⟨-, f, hf, hnone⟩
      exact hparse f hf hnone
    rw [runOCR_success_eq cfg h0 h30' hcond hwk hwrite]
    dsimp only
    have hlen : (sortFiles (cfg.rasterFiles.filter isPageImage)).length = N := by
      rw [sortFiles, List.length_insertionSort, hfiles]
    rw [joinedText_pipeline, hlen]
    have hmap : (List.range N).map (fun i => (cfg.recognizeRes i).getD "") =
        (List.range N).map (fun i => if i = k then "" else t i) :=
      List.map_congr_left fun i hi => by
        by_cases hik : i = k
        · rw [hik, hreck, if_pos rfl]
          rfl
        · rw [hrec i (List.mem_range.1 hi) hik, if_neg hik]
          rfl
    rw [hmap]

/-- Witness for C3: recognition of page 1 (of pages recognized as a, b, c)
rejects; the run still succeeds with the empty string in the middle
position, normalized to a single separating space. -/
theorem claim3_witness :
    processPageOCRWithWorker cfgDropPage.recognizeRes 1 =
        { index := 1, text := "" }
      ∧ (runOCR cfgDropPage).1 = Except.ok { text := "a c", pageCount := 3 } := by
  have h := claim3_failed_page_empty_at_position cfgDropPage 3 1
    (fun i => ["a", "b", "c"].getD i "") rfl (by decide) (by decide)
    (by decide) (by decide) (fun _ => rfl) rfl (by decide) rfl
    (fun i _ hik => by simp [cfgDropPage, hik])
  refine ⟨h.1, ?_⟩
  rw [h.2]
  decide

theorem runOCR_dir_cases (cfg : Config) :
    (runOCR cfg).2.2 = [] ∨
      ((runOCR cfg).2.2 = cfg.rasterFiles.filter (fun f => !isPageImage f)
        ∧ ∃ out, (runOCR cfg).1 = Except.ok out) := by
  rw [runOCR]
  dsimp only
  split
  · exact Or.inl rfl
  · split
    · exact Or.inl rfl
    · split
      · exact Or.inl rfl
      · split
        · exact Or.inl rfl
        · split
          · exact Or.inr ⟨rfl, _, rfl⟩
          · exact Or.inl rfl

theorem runOCR_ok_shape (cfg : Config) (out : RunOutcome)
    (h : (runOCR cfg).1 = Except.ok out) :
    out.pageCount = (cfg.rasterFiles.filter isPageImage).length ∧
      out.text = normalize (joinedText (pipelineResults cfg.recognizeRes
        (sortFiles (cfg.rasterFiles.filter isPageImage)))) := by
  rw [runOCR] at h
  dsimp only at h
  split at h
  · simp at h
  · split at h
    · simp at h
    · split at h
      · simp at h
      · split at h
        · simp at h
        · split at h
          · rw [Except.ok.injEq] at h
            rw [← h, sortFiles, List.length_insertionSort]
            exact ⟨rfl, rfl⟩
          · simp at h

/-- C6: the ordered page-image list is recovered by parsing the first run
of digits of each generated file name as its numeric page index and
sorting numerically by that index: the sorted list is a permutation of its
input that is pairwise ordered by numeric key; concretely, "page-2.jpg"
(index 2) sorts before "page-10.jpg" (index 10) although the lexical
order of the two names is the reverse. -/
theorem claim6_numeric_filename_sort :
    (∀ files : List String, (sortFiles files).Perm files
        ∧ (sortFiles files).Pairwise (fun a b => numKey a ≤ numKey b))
      ∧ parsePageIndex "page-2.jpg" = some 2
      ∧ parsePageIndex "page-10.jpg" = some 10
      ∧ sortFiles ["page-10.jpg", "page-2.jpg"] = ["page-2.jpg", "page-10.jpg"]
      ∧ List.Lex (· < ·) "page-10.jpg".data "page-2.jpg".data := by
  refine ⟨fun files => ⟨List.perm_insertionSort fileLE files,
    List.sorted_insertionSort fileLE files⟩, by decide, by decide, by decide,
    by decide⟩

/-- C9: after any run, successful or failed, the final working directory
contains no page image file: on success every matching image was deleted
during its batch, and on any failure the catch block of lines 144 to 165
deletes every remaining file (and removes the directory) before rethrowing
the original error, so a failed run always ends with an empty
directory. -/
theorem claim9_no_leftover_page_images (cfg : Config) :
    (∀ f ∈ (runOCR cfg).2.2, isPageImage f = false)
      ∧ (∀ e, (runOCR cfg).1 = Except.error e → (runOCR cfg).2.2 = []) := by
  rcases runOCR_dir_cases cfg with h | ⟨hdir, out, hok⟩
  · constructor
    · intro f hf
      rw [h] at hf
      simp at hf
    · intro e _
      exact h
  · constructor
    · intro f hf
      rw [hdir] at hf
      rcases List.mem_filter.1 hf with ⟨-, hnpi⟩
      simpa using hnpi
    · intro e he
      rw [hok] at he
      simp at he

/-- Witness for C9: a run whose directory holds a page image and an
unrelated file ends with the page image gone; the surviving file is not a
page image. -/
theorem claim9_witness : isPageImage "notes.txt" = false :=
  (claim9_no_leftover_page_images cfgLeftover).1 "notes.txt" (by decide)

/-- C10: the returned page count is the number of page image files the
rasterizer actually produced (directory entries matching the page prefix
and the jpg extension), not the reported page count; in particular, when
rasterization produces no matching image despite a positive reported page
count, the run still succeeds, with page count 0 and empty text, rather
than failing. -/
theorem claim10_pagecount_from_actual_files :
    (∀ cfg : Config, ∀ out, (runOCR cfg).1 = Except.ok out →
        out.pageCount = (cfg.rasterFiles.filter isPageImage).length)
      ∧ (∀ cfg : Config, cfg.reportedPageCount ≠ 0 →
          ¬ 30 < cfg.reportedPageCount →
          cfg.rasterFiles.filter isPageImage = [] →
          (∀ i, cfg.workerOk i = true) → cfg.writeOk = true →
          (runOCR cfg).1 = Except.ok { text := "", pageCount := 0 }) := by
  constructor
  · intro cfg out h
    exact (runOCR_ok_shape cfg out h).1
  · intro cfg h0 h30 hempty hwk hwrite
    have hcond : ¬(2 ≤ (cfg.rasterFiles.filter isPageImage).length ∧
        ∃ f ∈ cfg.rasterFiles.filter isPageImage, parsePageIndex f = none) := by
      rw [hempty]
      rintro ⟨h2, -⟩
      simp at h2
    rw [runOCR_success_eq cfg h0 h30 hcond hwk hwrite]
    dsimp only
    rw [hempty]
    have hpr : pipelineResults cfg.recognizeRes (sortFiles []) = [] := rfl
    rw [hpr]
    decide

/-- Witness for C10: reported page count 2 but no generated images — the
run succeeds with page count 0 and empty text. -/
theorem claim10_witness :
    (runOCR cfgNoImages).1 = Except.ok { text := "", pageCount := 0 } :=
  claim10_pagecount_from_actual_files.2 cfgNoImages (by decide) (by decide)
    rfl (fun _ => rfl) rfl

theorem mem_batchFlatten_cases (σ : List Nat → List Nat)
    (bs : List (List (Nat × String))) (e : Event)
    (h : e ∈ (bs.map (batchTrace σ)).flatten) :
    (∃ i, e = Event.startPage i) ∨ (∃ i, e = Event.settlePage i) ∨
      ∃ f, e = Event.deleteFile f := by
  rcases List.mem_flatten.1 h with ⟨t, ht, he⟩
  rcases List.mem_map.1 ht with ⟨b, -, rfl⟩
  rcases List.mem_append.1 he with h' | h'
  · rcases List.mem_append.1 h' with h'' | h''
    · rcases List.mem_map.1 h'' with ⟨p, -, rfl⟩
      exact Or.inl ⟨p.1, rfl⟩
    · rcases List.mem_map.1 h'' with ⟨j, -, rfl⟩
      exact Or.inr (Or.inl ⟨j, rfl⟩)
  · rcases List.mem_map.1 h' with ⟨p, -, rfl⟩
    exact Or.inr (Or.inr ⟨p.2, rfl⟩)

theorem cw_lt_five_of_mem {i : Nat} {σ : List Nat → List Nat}
    {bs : List (List (Nat × String))}
    (h : Event.createWorker i ∈
      [Event.queryPageCount, Event.rasterize]
        ++ (List.range 5).map Event.createWorker
        ++ (bs.map (batchTrace σ)).flatten
        ++ (List.range 5).map Event.terminateWorker
        ++ [Event.rmdirTemp]) : i < 5 := by
  rcases List.mem_append.1 h with h | h
  · rcases List.mem_append.1 h with h | h
    · rcases List.mem_append.1 h with h | h
      · rcases List.mem_append.1 h with h | h
        · simp at h
        · rcases List.mem_map.1 h with ⟨a, ha, hae⟩
          have hai : a = i := by simpa using hae
          subst hai
          exact List.mem_range.1 ha
      · rcases mem_batchFlatten_cases _ _ _ h with ⟨j, hj⟩ | ⟨j, hj⟩ | ⟨f, hj⟩ <;>
          simp at hj
    · rcases List.mem_map.1 h with ⟨a, -, hae⟩
      simp at hae
  · simp at h

theorem tw_mem_successTrace {i : Nat} (hi5 : i < 5) (σ : List Nat → List Nat)
    (bs : List (List (Nat × String))) :
    Event.terminateWorker i ∈
      [Event.queryPageCount, Event.rasterize]
        ++ (List.range 5).map Event.createWorker
        ++ (bs.map (batchTrace σ)).flatten
        ++ (List.range 5).map Event.terminateWorker
        ++ [Event.rmdirTemp] := by
  refine List.mem_append.2 (Or.inl (List.mem_append.2 (Or.inr ?_)))
  exact List.mem_map.2 ⟨i, List.mem_range.2 hi5, rfl⟩

/-- C8 (amended): every exit path reached after the worker pool has been
fully created — success or a later failure — terminates every worker of
the pool, because the batch loop sits inside a `try` whose `finally`
(lines 107 to 117) terminates all pool members; so whenever every
`createWorker` call succeeds, every created worker is eventually
terminated.  A `createWorker` rejection during pool creation itself,
however, leaks the workers already created, because the creation loop of
lines 65 to 80 is outside the `try`/`finally`; see the counterexample. -/
theorem claim8_pool_released_after_creation (cfg : Config)
    (hwk : ∀ i, cfg.workerOk i = true) :
    ∀ i, Event.createWorker i ∈ (runOCR cfg).2.1 →
      Event.terminateWorker i ∈ (runOCR cfg).2.1 := by
  intro i hi
  by_cases h0 : cfg.reportedPageCount = 0
  · rw [runOCR, if_pos h0] at hi
    simp at hi
  by_cases h30 : 30 < cfg.reportedPageCount
  · rw [runOCR, if_neg h0, if_pos h30] at hi
    simp at hi
  by_cases hcond : 2 ≤ (cfg.rasterFiles.filter isPageImage).length ∧
      ∃ f ∈ cfg.rasterFiles.filter isPageImage, parsePageIndex f = none
  · rw [runOCR, if_neg h0, if_neg h30] at hi
    dsimp only at hi
    rw [if_pos hcond] at hi
    simp at hi
  cases hwb : cfg.writeOk with
  | false =>
    rw [runOCR_writefail_eq cfg h0 h30 hcond hwk hwb] at hi ⊢
    dsimp only at hi ⊢
    rcases List.mem_append.1 hi with h | h
    · rcases List.mem_append.1 h with h | h
      · have hi5 := cw_lt_five_of_mem h
        exact List.mem_append.2 (Or.inl (List.mem_append.2 (Or.inl
          (tw_mem_successTrace hi5 _ _))))
      · rcases List.mem_map.1 h with ⟨f, -, hae⟩
        simp at hae
    · simp at h
  | true =>
    rw [runOCR_success_eq cfg h0 h30 hcond hwk hwb] at hi ⊢
    dsimp only at hi ⊢
    exact tw_mem_successTrace (cw_lt_five_of_mem hi) _ _

/-- C8 as stated fails on the code: when the third `createWorker` call
rejects, the run fails with the worker-creation error and the two workers
already created are never terminated, because pool creation happens before
the `try`/`finally` that guards the batch loop. -/
theorem claim8_counterexample :
    Event.createWorker 0 ∈ (runOCR cfgWorkerLeak).2.1
      ∧ Event.terminateWorker 0 ∉ (runOCR cfgWorkerLeak).2.1
      ∧ (runOCR cfgWorkerLeak).1 =
        Except.error (OCRError.workerCreationFailed 2) := by
  decide

/-- Witness for C8 (amended): with a fully created pool, worker 0 is
created and then terminated on the successful exit path. -/
theorem claim8_witness :
    Event.terminateWorker 0 ∈ (runOCR cfgThreePages).2.1 :=
  claim8_pool_released_after_creation cfgThreePages (fun _ => rfl) 0 (by decide)

theorem no_start_settle_pre (e : Event)
    (he : e ∈ [Event.queryPageCount, Event.rasterize]
      ++ (List.range 5).map Event.createWorker) :
    isStartEv e = false ∧ isSettleEv e = false := by
  rcases List.mem_append.1 he with h | h
  · rcases List.mem_cons.1 h with rfl | h'
    · exact ⟨rfl, rfl⟩
    · rw [List.mem_singleton.1 h']
      exact ⟨rfl, rfl⟩
  · rcases List.mem_map.1 h with ⟨a, -, rfl⟩
    exact ⟨rfl, rfl⟩

/-- C5: batches are strictly sequential and in-flight concurrency is capped
by the batch size 5.  First conjunct: along every prefix of the run's
event trace, the number of launched recognition tasks exceeds the number of
settled ones by at most 5, so at no point are more than 5 recognitions in
flight.  Second conjunct: every task of batch k settles before any task of
batch k+1 starts — the settle event of each page of batch k precedes the
start event of each page of batch k+1 in the trace — for every completion
schedule of the tasks inside a batch. -/
theorem claim5_sequential_bounded_batches (cfg : Config)
    (hσ : ∀ l, (cfg.settleOrder l).Perm l)
    (h0 : cfg.reportedPageCount ≠ 0)
    (h30 : ¬ 30 < cfg.reportedPageCount)
    (hcond : ¬(2 ≤ (cfg.rasterFiles.filter isPageImage).length ∧
      ∃ f ∈ cfg.rasterFiles.filter isPageImage, parsePageIndex f = none))
    (hwk : ∀ i, cfg.workerOk i = true) :
    (∀ p, p <+: (runOCR cfg).2.1 →
        p.countP isStartEv ≤ p.countP isSettleEv + 5)
      ∧ ∀ k bk bk1,
          (chunks5 (sortFiles (cfg.rasterFiles.filter isPageImage)).enum)[k]?
              = some bk →
          (chunks5 (sortFiles (cfg.rasterFiles.filter isPageImage)).enum)[k + 1]?
              = some bk1 →
          ∀ a ∈ bk, ∀ b ∈ bk1,
            [Event.settlePage a.1, Event.startPage b.1].Sublist
              (runOCR cfg).2.1 := by
  obtain ⟨post, htr, hpost⟩ := runOCR_trace_decomp cfg h0 h30 hcond hwk
  constructor
  · intro p hp
    rw [htr] at hp
    rcases prefix_append_split hp with h | ⟨q, hq, rfl⟩
    · have hs : p.countP isStartEv = 0 :=
        countP_zero_of_false fun e he => (no_start_settle_pre e (h.subset he)).1
      omega
    · have hAs : ([Event.queryPageCount, Event.rasterize]
          ++ (List.range 5).map Event.createWorker).countP isStartEv = 0 :=
        countP_zero_of_false fun e he => (no_start_settle_pre e he).1
      have hAt : ([Event.queryPageCount, Event.rasterize]
          ++ (List.range 5).map Event.createWorker).countP isSettleEv = 0 :=
        countP_zero_of_false fun e he => (no_start_settle_pre e he).2
      rcases prefix_append_split hq with h | ⟨r, hr, rfl⟩
      · have hb := flatten_batch_bound cfg.settleOrder hσ _
          (chunks5_mem_length _) q h
        rw [List.countP_append isStartEv, List.countP_append isSettleEv,
          hAs, hAt]
        omega
      · have hbal := flatten_batch_balance cfg.settleOrder hσ
          (chunks5 (sortFiles (cfg.rasterFiles.filter isPageImage)).enum)
        have hrs : r.countP isStartEv = 0 :=
          countP_zero_of_false fun e he => (hpost e (hr.subset he)).1
        rw [List.countP_append isStartEv, List.countP_append isSettleEv,
          hAs, hAt, List.countP_append isStartEv,
          List.countP_append isSettleEv, hrs]
        omega
  · intro k bk bk1 hk hk1 a ha b hb
    have hmem1 : Event.settlePage a.1 ∈ batchTrace cfg.settleOrder bk := by
      have hpm : a.1 ∈ cfg.settleOrder (bk.map Prod.fst) :=
        (hσ _).mem_iff.2 (List.mem_map.2 ⟨a, ha, rfl⟩)
      exact List.mem_append.2 (Or.inl (List.mem_append.2 (Or.inr
        (List.mem_map.2 ⟨a.1, hpm, rfl⟩))))
    have hmem2 : Event.startPage b.1 ∈ batchTrace cfg.settleOrder bk1 :=
      List.mem_append.2 (Or.inl (List.mem_append.2 (Or.inl
        (List.mem_map.2 ⟨b, hb, rfl⟩))))
    have hts1 : ((chunks5 (sortFiles (cfg.rasterFiles.filter isPageImage)).enum).map
        (batchTrace cfg.settleOrder))[k]?
          = some (batchTrace cfg.settleOrder bk) := by
      rw [List.getElem?_map, hk]
      rfl
    have hts2 : ((chunks5 (sortFiles (cfg.rasterFiles.filter isPageImage)).enum).map
        (batchTrace cfg.settleOrder))[k + 1]?
          = some (batchTrace cfg.settleOrder bk1) := by
      rw [List.getElem?_map, hk1]
      rfl
    have hsub := pair_sublist_flatten hts1 hts2 hmem1 hmem2
    rw [htr]
    exact hsub.trans ((List.sublist_append_left _ post).trans
      (List.sublist_append_right _ _))

/-- Witness for C5: a concrete three-page run (settling in reverse order)
satisfies the in-flight bound along its whole trace. -/
theorem claim5_witness :
    (runOCR cfgThreePages).2.1.countP isStartEv ≤
      (runOCR cfgThreePages).2.1.countP isSettleEv + 5 :=
  (claim5_sequential_bounded_batches cfgThreePages
      (fun l => List.reverse_perm l) (by decide) (by decide) (by decide)
      (fun _ => rfl)).1 _ (List.prefix_refl _)

/-- C7 (amended): each page's image file is deleted within the batch
iteration that processed it: the deletion happens after every result of
that batch is captured (deletions run only after the batch's `Promise.all`
at lines 95 to 105) and before any task of the next batch starts — so no
page image survives past the batch that processed it, but deletion does
wait for the rest of the page's own batch; see the counterexample. -/
theorem claim7_delete_within_batch (cfg : Config)
    (hσ : ∀ l, (cfg.settleOrder l).Perm l)
    (h0 : cfg.reportedPageCount ≠ 0)
    (h30 : ¬ 30 < cfg.reportedPageCount)
    (hcond : ¬(2 ≤ (cfg.rasterFiles.filter isPageImage).length ∧
      ∃ f ∈ cfg.rasterFiles.filter isPageImage, parsePageIndex f = none))
    (hwk : ∀ i, cfg.workerOk i = true) :
    ∀ k bk,
      (chunks5 (sortFiles (cfg.rasterFiles.filter isPageImage)).enum)[k]?
          = some bk →
      ∀ p ∈ bk,
        (∀ a ∈ bk, [Event.settlePage a.1, Event.deleteFile p.2].Sublist
            (runOCR cfg).2.1)
          ∧ ∀ bk1,
              (chunks5 (sortFiles (cfg.rasterFiles.filter isPageImage)).enum)[k + 1]?
                  = some bk1 →
              ∀ b ∈ bk1, [Event.deleteFile p.2, Event.startPage b.1].Sublist
                (runOCR cfg).2.1 := by
  obtain ⟨post, htr, -⟩ := runOCR_trace_decomp cfg h0 h30 hcond hwk
  intro k bk hk p hp
  have hdel : Event.deleteFile p.2 ∈ batchTrace cfg.settleOrder bk :=
    List.mem_append.2 (Or.inr (List.mem_map.2 ⟨p, hp, rfl⟩))
  constructor
  · intro a ha
    have hset : Event.settlePage a.1
        ∈ bk.map (fun q => Event.startPage q.1)
          ++ (cfg.settleOrder (bk.map Prod.fst)).map Event.settlePage := by
      have hpm : a.1 ∈ cfg.settleOrder (bk.map Prod.fst) :=
        (hσ _).mem_iff.2 (List.mem_map.2 ⟨a, ha, rfl⟩)
      exact List.mem_append.2 (Or.inr (List.mem_map.2 ⟨a.1, hpm, rfl⟩))
    have hpair : ([Event.settlePage a.1] ++ [Event.deleteFile p.2]).Sublist
        (batchTrace cfg.settleOrder bk) :=
      List.Sublist.append (List.singleton_sublist.2 hset)
        (List.singleton_sublist.2 (List.mem_map.2 ⟨p, hp, rfl⟩))
    have hbt : (batchTrace cfg.settleOrder bk).Sublist
        (((chunks5 (sortFiles (cfg.rasterFiles.filter isPageImage)).enum).map
          (batchTrace cfg.settleOrder)).flatten) :=
      List.sublist_flatten_of_mem
        (List.mem_map.2 ⟨bk, List.getElem?_mem hk, rfl⟩)
    rw [htr]
    exact (hpair.trans hbt).trans ((List.sublist_append_left _ post).trans
      (List.sublist_append_right _ _))
  · intro bk1 hk1 b hb
    have hmem2 : Event.startPage b.1 ∈ batchTrace cfg.settleOrder bk1 :=
      List.mem_append.2 (Or.inl (List.mem_append.2 (Or.inl
        (List.mem_map.2 ⟨b, hb, rfl⟩))))
    have hts1 : ((chunks5 (sortFiles (cfg.rasterFiles.filter isPageImage)).enum).map
        (batchTrace cfg.settleOrder))[k]?
          = some (batchTrace cfg.settleOrder bk) := by
      rw [List.getElem?_map, hk]
      rfl
    have hts2 : ((chunks5 (sortFiles (cfg.rasterFiles.filter isPageImage)).enum).map
        (batchTrace cfg.settleOrder))[k + 1]?
          = some (batchTrace cfg.settleOrder bk1) := by
      rw [List.getElem?_map, hk1]
      rfl
    have hsub := pair_sublist_flatten hts1 hts2 hdel hmem2
    rw [htr]
    exact hsub.trans ((List.sublist_append_left _ post).trans
      (List.sublist_append_right _ _))

/-- C7 as stated fails on the code: in a single batch of two pages where
page 0 settles first, page 0's image file is deleted only after page 1
also settles — there is no deletion of page 0's image anywhere before page
1's settlement, because the deletions of lines 99 to 105 run only after
the whole batch's `Promise.all` resolves. -/
theorem claim7_counterexample :
    [Event.settlePage 0, Event.settlePage 1,
        Event.deleteFile "page-1.jpg"].Sublist (runOCR cfgPair).2.1
      ∧ ¬ [Event.deleteFile "page-1.jpg",
          Event.settlePage 1].Sublist (runOCR cfgPair).2.1 := by
  decide

/-- Witness for C7 (amended): in the two-page single-batch run, page 0's
image is deleted after page 1's result is captured. -/
theorem claim7_witness :
    [Event.settlePage 1, Event.deleteFile "page-1.jpg"].Sublist
      (runOCR cfgPair).2.1 :=
  ((claim7_delete_within_batch cfgPair (fun l => List.Perm.refl l)
      (by decide) (by decide) (by decide) (fun _ => rfl) 0
      [(0, "page-1.jpg"), (1, "page-2.jpg")] (by decide)
      (0, "page-1.jpg") (by decide)).1
    (1, "page-2.jpg") (by decide))

end PdfOCR
